import Mathlib

/-!
# Verification of the Kaleidoscope front end

A shallow embedding of the lexer and parser of the Kaleidoscope toy
language (guilload/kaleidoscope) together with theorems settling the
frozen claims about them.

Embedded components and their sources:

* the lexer of src/lexer.py together with the token classes and keyword
  table of src/tokens.py (the Keyword, EOF, Identifier, Number and Char
  classes);
* the parser of src/kaleidoscope/parser.py with the keyword set of
  src/kaleidoscope/tokens.py and the built-in precedence table of
  src/kaleidoscope/context.py;
* the AST node shapes consumed by that parser.  The module
  kaleidoscope/ast.py is not among the sources, so the node shapes are
  modelled from the spec (section 3) and from the constructor calls made
  by the parser itself; the same holds for the operator-registration
  side effect performed when a definition is lowered (spec section 4.2),
  modelled here by lowerItem and the session driver (the driver loop of
  src/kaleidoscope/repl.py lowers each parsed item before pulling the
  next one from the lazy parse generator).

Numeric literals are Python floats in the source.  They are embedded as
exact unnormalised decimals (an integer mantissa with a power-of-ten
exponent); on every value occurring in the claims (small integers and
short decimal fractions such as 12.5) the Python float is exact, so the
two semantics agree wherever a claim looks.

Parsing functions are fueled: every recursive call consumes one unit of
fuel, and running out of fuel reports a distinguished error that a real
run never produces when the fuel exceeds the input length.  A generator
of the Python source becomes a function returning the list of its
yields.
-/

namespace Kal

/-- Exact decimal value: mantissa times ten to the minus exponent.  This
embeds the numeric values that the Python source keeps as floats. -/
structure NumV where
  man : Int
  exp : Nat
deriving DecidableEq, Repr

/-- Value comparison of two decimals by cross multiplication. -/
def NumV.blt (a b : NumV) : Bool :=
  a.man * (10 : Int) ^ b.exp < b.man * (10 : Int) ^ a.exp

/-- Non-strict value comparison of two decimals. -/
def NumV.ble (a b : NumV) : Bool :=
  a.man * (10 : Int) ^ b.exp ≤ b.man * (10 : Int) ^ a.exp

/-- Add one to a decimal, as the Python source does with precedence + 1. -/
def NumV.addOne (a : NumV) : NumV :=
  ⟨a.man + (10 : Int) ^ a.exp, a.exp⟩

/-- Whitespace in the sense of the str.isspace method of Python 2. -/
def isSpacePy (c : Char) : Bool :=
  c = ' ' || c = '\t' || c = '\n' || c = '\x0d' || c = '\x0b' || c = '\x0c'

/-- Alphanumeric in the sense of the str.isalnum method on ASCII text. -/
def isAlnumPy (c : Char) : Bool :=
  c.isAlpha || c.isDigit

/-- The ten keywords of src/kaleidoscope/tokens.py.  The keyword table of
src/tokens.py, used by the lexer of src/lexer.py, maps only six of them
(def, else, for, if, then, extern); the remaining four spellings lex as
identifiers there. -/
inductive Kw where
  | kbinary
  | kdef
  | kelse
  | kextern
  | kfor
  | kif
  | kin
  | kthen
  | kunary
  | kvar
deriving DecidableEq, Repr

/-- Tokens: the classes of src/tokens.py and src/kaleidoscope/tokens.py
(Keyword singletons, the EOF singleton, Identifier, Number, Char). -/
inductive Token where
  | keyword (k : Kw)
  | eof
  | ident (name : String)
  | number (value : NumV)
  | char (value : Char)
deriving DecidableEq, Repr

/-- The keyword table KEYWORDS of src/tokens.py: six entries.  A string
not in the table becomes an Identifier token. -/
def mkWord (w : String) : Token :=
  if w = ("def") then Token.keyword Kw.kdef
  else if w = ("else") then Token.keyword Kw.kelse
  else if w = ("for") then Token.keyword Kw.kfor
  else if w = ("if") then Token.keyword Kw.kif
  else if w = ("then") then Token.keyword Kw.kthen
  else if w = ("extern") then Token.keyword Kw.kextern
  else Token.ident w

/-- The loop of Lexer.lex_number of src/lexer.py.  The state is the
unread input (whose head is the current character) and the dot flag;
the result is the list of consumed characters and the unread rest.
Faithful to the source: the flag is cleared as soon as the character
read ahead is a dot, before the loop condition ever examines it. -/
def numScan : List Char → Bool → List Char × List Char
  | [], _ => ([], [])
  | c :: rest, dot =>
    if c.isDigit || (dot && c = '.') then
      let dot2 := if rest.head? = some '.' then false else dot
      let r := numScan rest dot2
      (c :: r.1, r.2)
    else ([], c :: rest)

/-- Decimal value of the consumed characters of a numeric lexeme (digits
with at most one dot), the exact counterpart of float(string). -/
def toNumVGo : List Char → Int → Nat → Bool → NumV
  | [], m, e, _ => ⟨m, e⟩
  | c :: rest, m, e, seen =>
    if c = '.' then toNumVGo rest m e true
    else toNumVGo rest (m * 10 + ((c.toNat - '0'.toNat : Nat) : Int))
      (if seen then e + 1 else e) seen

/-- Decimal value of a numeric lexeme. -/
def toNumV (cs : List Char) : NumV :=
  toNumVGo cs 0 0 false

/-- One run of the Lexer.lex generator of src/lexer.py over the unread
input, fueled by the number of loop iterations still allowed.  Each
iteration consumes at least one character, so any fuel above the input
length is enough.  The generator yields EOF exactly once, after the
input is exhausted, and then stops. -/
def lexGo : Nat → List Char → List Token
  | 0, _ => []
  | _ + 1, [] => [Token.eof]
  | fuel + 1, c :: rest =>
    if c = '#' then
      lexGo fuel (rest.dropWhile (fun x => !(x = '\n')))
    else if c.isAlpha then
      mkWord (String.mk (c :: rest.takeWhile isAlnumPy)) ::
        lexGo fuel (rest.dropWhile isAlnumPy)
    else if c.isDigit then
      let r := numScan rest true
      Token.number (toNumV (c :: r.1)) :: lexGo fuel r.2
    else if isSpacePy c then
      lexGo fuel (rest.dropWhile isSpacePy)
    else
      Token.char c :: lexGo fuel rest

/-- The token list yielded by the Lexer.lex generator of src/lexer.py on
the given input. -/
def lexTokens (s : List Char) : List Token :=
  lexGo (s.length + 1) s

/-- Modelled from the spec: the expression node shapes of
kaleidoscope/ast.py (absent from the sources), following section 3 of
the spec and the constructor calls made by src/kaleidoscope/parser.py
(Number, Variable, UnaryOperator, BinaryOperator, Call, If with an
optional else branch, For with an optional step, Var with an ordered
binding list). -/
inductive Expression where
  | num (value : NumV)
  | varRef (name : String)
  | unary (op : Char) (operand : Expression)
  | binary (op : Char) (left right : Expression)
  | call (callee : String) (args : List Expression)
  | ifE (condition thenBranch : Expression) (elseBranch : Option Expression)
  | forE (loopVar : String) (start stop : Expression)
      (step : Option Expression) (body : Expression)
  | varE (bindings : List (String × Option Expression)) (body : Expression)

/-- Modelled from the spec: the Prototype node of kaleidoscope/ast.py
(absent from the sources), as constructed by Parser.parse_prototype with
a name, the parameter names, the operator flag and the optional declared
precedence, and by Parser.parse_toplevel with an anonymous zero-argument
prototype. -/
structure Prototype where
  name : String
  args : List String
  isOperator : Bool
  precedence : Option NumV
deriving DecidableEq, Repr

/-- Modelled from the spec: the Function node of kaleidoscope/ast.py
(absent from the sources): a prototype together with a body. -/
structure Function where
  prototype : Prototype
  body : Expression

/-- One item yielded by the Parser.parse generator of
src/kaleidoscope/parser.py: parse_definition and parse_toplevel yield a
Function, parse_extern yields the bare Prototype, and the if and var
arms yield the expression node itself. -/
inductive TopItem where
  | fn (f : Function)
  | proto (p : Prototype)
  | expr (e : Expression)

/-- Whether a yielded item is a Function node. -/
def TopItem.isFn : TopItem → Bool
  | TopItem.fn _ => true
  | _ => false

/-- The operator table: the precedence dict of
src/kaleidoscope/context.py, an association list from one-character
operator symbols to numeric precedences.  Insertion prepends, and
lookup takes the first match, modelling dict update and access. -/
abbrev PrecTab := List (Char × NumV)

/-- The built-in table of src/kaleidoscope/context.py: exactly six
entries. -/
def builtinPrecedence : PrecTab :=
  [('=', ⟨2, 0⟩), ('<', ⟨10, 0⟩), ('+', ⟨20, 0⟩), ('-', ⟨20, 0⟩),
   ('*', ⟨40, 0⟩), ('/', ⟨40, 0⟩)]

/-- Context.precedence.get(key, -1): table lookup with default -1. -/
def precGet (tbl : PrecTab) (c : Char) : NumV :=
  (tbl.lookup c).getD ⟨-1, 0⟩

/-- Parser.current_token_precedence: the table entry of the current
token when it is a Char token, and -1 otherwise. -/
def currentTokenPrecedence (tbl : PrecTab) (ts : List Token) : NumV :=
  match ts with
  | Token.char c :: _ => precGet tbl c
  | _ => ⟨-1, 0⟩

/-- Result of a fallible parsing function: the parsed value and the
unread rest of the token stream, or the message of the SyntaxError
raised.  The head of a stream plays the role of Parser.current. -/
abbrev PRes (α : Type) := Except String (α × List Token)

/-- Error reported when the fuel runs out; a run of the Python source
never reaches it, since any fuel above the stream length is enough. -/
def fuelMsg : String := "fuel exhausted"

/-- Error standing for the StopIteration that Parser.next would raise
when pulling past the end of the token stream; unreachable on streams
ending in the EOF sentinel. -/
def streamMsg : String := "token stream exhausted"

/-- Error standing for the AttributeError that reading
Parser.current.value would raise inside parse_binop_right on a token
that is not a Char token; unreachable while the minimal precedence is
at least zero, since such tokens have precedence -1 there. -/
def valueMsg : String := "current token has no operator value"

mutual

/-- Parser.parse_expression: a unary operand followed by the binary
operator climb started at minimal precedence zero. -/
def parseExpression : Nat → PrecTab → List Token → Except String (Expression × List Token)
  | 0, _, _ => Except.error fuelMsg
  | fuel + 1, tbl, ts => do
    let (left, ts1) ← parseUnary fuel tbl ts
    parseBinopRight fuel tbl left ⟨0, 0⟩ ts1

/-- Parser.parse_binop_right: the precedence-climbing loop.  Each turn
of the Python while loop is one fueled recursive call with the same
minimal precedence. -/
def parseBinopRight : Nat → PrecTab → Expression → NumV → List Token →
    Except String (Expression × List Token)
  | 0, _, _, _, _ => Except.error fuelMsg
  | fuel + 1, tbl, left, minPrec, ts =>
    let prec := currentTokenPrecedence tbl ts
    if NumV.blt prec minPrec then Except.ok (left, ts)
    else
      match ts with
      | Token.char c :: rest => do
        let (right, ts1) ← parseUnary fuel tbl rest
        let nextPrec := currentTokenPrecedence tbl ts1
        if NumV.blt prec nextPrec then do
          let (right2, ts2) ← parseBinopRight fuel tbl right
            (NumV.addOne prec) ts1
          parseBinopRight fuel tbl (Expression.binary c left right2)
            minPrec ts2
        else
          parseBinopRight fuel tbl (Expression.binary c left right)
            minPrec ts1
      | _ => Except.error valueMsg

/-- Parser.parse_unary: a Char token other than the two parentheses is
consumed as a prefix operator over a recursively parsed operand; every
other current token falls through to parse_primary. -/
def parseUnary : Nat → PrecTab → List Token → Except String (Expression × List Token)
  | 0, _, _ => Except.error fuelMsg
  | fuel + 1, tbl, ts =>
    match ts with
    | Token.char c :: rest =>
      if c = '(' || c = ')' then parsePrimary fuel tbl ts
      else do
        let (operand, ts1) ← parseUnary fuel tbl rest
        Except.ok (Expression.unary c operand, ts1)
    | _ => parsePrimary fuel tbl ts

/-- Parser.parse_primary: dispatch on the current token, in the order
of the Python source. -/
def parsePrimary : Nat → PrecTab → List Token → Except String (Expression × List Token)
  | 0, _, _ => Except.error fuelMsg
  | fuel + 1, tbl, ts =>
    match ts with
    | Token.ident _ :: _ => parseIdentifierExpr fuel tbl ts
    | Token.keyword Kw.kif :: _ => parseIf fuel tbl ts
    | Token.keyword Kw.kfor :: _ => parseFor fuel tbl ts
    | Token.number v :: rest => Except.ok (Expression.num v, rest)
    | Token.keyword Kw.kvar :: _ => parseVar fuel tbl ts
    | Token.char '(' :: _ => parseParen fuel tbl ts
    | _ => Except.error ("Unknown token when expecting an expression.")

/-- Parser.parse_identifier: a bare variable reference, or a call when
an opening parenthesis follows the name. -/
def parseIdentifierExpr : Nat → PrecTab → List Token → Except String (Expression × List Token)
  | 0, _, _ => Except.error fuelMsg
  | fuel + 1, tbl, ts =>
    match ts with
    | Token.ident name :: rest =>
      match rest with
      | Token.char '(' :: rest2 =>
        (match rest2 with
         | Token.char ')' :: rest3 => Except.ok (Expression.call name [], rest3)
         | _ => do
           let (args, ts1) ← parseArgsLoop fuel tbl rest2
           Except.ok (Expression.call name args, ts1))
      | _ => Except.ok (Expression.varRef name, rest)
    | _ => Except.error streamMsg

/-- The call-argument loop of Parser.parse_identifier; the closing
parenthesis that breaks the loop is consumed by the next() following
it. -/
def parseArgsLoop : Nat → PrecTab → List Token → Except String (List Expression × List Token)
  | 0, _, _ => Except.error fuelMsg
  | fuel + 1, tbl, ts => do
    let (e, ts1) ← parseExpression fuel tbl ts
    match ts1 with
    | Token.char ')' :: rest => Except.ok ([e], rest)
    | Token.char ',' :: rest => do
      let (es, ts2) ← parseArgsLoop fuel tbl rest
      Except.ok (e :: es, ts2)
    | _ => Except.error ("Expected rparen or comma in argument list")

/-- Parser.parse_paren: consume the opening parenthesis, parse the
inner expression, and require the closing parenthesis. -/
def parseParen : Nat → PrecTab → List Token → Except String (Expression × List Token)
  | 0, _, _ => Except.error fuelMsg
  | fuel + 1, tbl, ts =>
    match ts with
    | _ :: rest => do
      let (e, ts1) ← parseExpression fuel tbl rest
      match ts1 with
      | Token.char ')' :: rest2 => Except.ok (e, rest2)
      | _ => Except.error ("Expected rparen.")
    | [] => Except.error streamMsg

/-- Parser.parse_if: condition, then branch, and an optional else
branch (its absence returns a node without an else branch). -/
def parseIf : Nat → PrecTab → List Token → Except String (Expression × List Token)
  | 0, _, _ => Except.error fuelMsg
  | fuel + 1, tbl, ts =>
    match ts with
    | _ :: rest => do
      let (cond, ts1) ← parseExpression fuel tbl rest
      match ts1 with
      | Token.keyword Kw.kthen :: ts2 => do
        let (thenB, ts3) ← parseExpression fuel tbl ts2
        match ts3 with
        | Token.keyword Kw.kelse :: ts4 => do
          let (elseB, ts5) ← parseExpression fuel tbl ts4
          Except.ok (Expression.ifE cond thenB (some elseB), ts5)
        | _ => Except.ok (Expression.ifE cond thenB none, ts3)
      | _ => Except.error ("Expected then.")
    | [] => Except.error streamMsg

/-- Parser.parse_for: loop variable, start, end, optional step, and the
body after the in keyword. -/
def parseFor : Nat → PrecTab → List Token → Except String (Expression × List Token)
  | 0, _, _ => Except.error fuelMsg
  | fuel + 1, tbl, ts =>
    match ts with
    | _ :: Token.ident v :: rest =>
      match rest with
      | Token.char '=' :: rest2 => do
        let (start, ts1) ← parseExpression fuel tbl rest2
        match ts1 with
        | Token.char ',' :: ts2 => do
          let (stop, ts3) ← parseExpression fuel tbl ts2
          match ts3 with
          | Token.char ',' :: ts4 => do
            let (step, ts5) ← parseExpression fuel tbl ts4
            (match ts5 with
             | Token.keyword Kw.kin :: ts6 => do
               let (body, ts7) ← parseExpression fuel tbl ts6
               Except.ok (Expression.forE v start stop (some step) body, ts7)
             | _ => Except.error ("Expected in after for variable specification."))
          | Token.keyword Kw.kin :: ts4 => do
            let (body, ts5) ← parseExpression fuel tbl ts4
            Except.ok (Expression.forE v start stop none body, ts5)
          | _ => Except.error ("Expected in after for variable specification.")
        | _ => Except.error ("Expected comma after for start value.")
      | _ => Except.error ("Expected eq after for variable.")
    | _ :: _ => Except.error ("Expected identifier after for.")
    | [] => Except.error streamMsg

/-- Parser.parse_var: at least one binding with an optional
initializer, then the body after the in keyword. -/
def parseVar : Nat → PrecTab → List Token → Except String (Expression × List Token)
  | 0, _, _ => Except.error fuelMsg
  | fuel + 1, tbl, ts =>
    match ts with
    | _ :: rest =>
      match rest with
      | Token.ident _ :: _ => do
        let (bs, ts1) ← parseVarLoop fuel tbl rest
        match ts1 with
        | Token.keyword Kw.kin :: ts2 => do
          let (body, ts3) ← parseExpression fuel tbl ts2
          Except.ok (Expression.varE bs body, ts3)
        | _ => Except.error ("Expected in keyword after var.")
      | _ => Except.error ("Expected identifier after var.")
    | [] => Except.error streamMsg

/-- The binding loop of Parser.parse_var; entry is guarded so the head
is an identifier. -/
def parseVarLoop : Nat → PrecTab → List Token →
    Except String (List (String × Option Expression) × List Token)
  | 0, _, _ => Except.error fuelMsg
  | fuel + 1, tbl, ts =>
    match ts with
    | Token.ident name :: rest =>
      match rest with
      | Token.char '=' :: rest2 => do
        let (init, ts1) ← parseExpression fuel tbl rest2
        match ts1 with
        | Token.char ',' :: ts2 =>
          (match ts2 with
           | Token.ident _ :: _ => do
             let (bs, ts3) ← parseVarLoop fuel tbl ts2
             Except.ok ((name, some init) :: bs, ts3)
           | _ => Except.error ("Expected identifier after comma in a var expression."))
        | _ => Except.ok ([(name, some init)], ts1)
      | Token.char ',' :: ts2 =>
        (match ts2 with
         | Token.ident _ :: _ => do
           let (bs, ts3) ← parseVarLoop fuel tbl ts2
           Except.ok ((name, none) :: bs, ts3)
         | _ => Except.error ("Expected identifier after comma in a var expression."))
      | _ => Except.ok ([(name, none)], rest)
    | _ => Except.error streamMsg

end

/-- The argument-collecting loop of Parser.parse_prototype: consume
identifiers while the current token is one. -/
def protoArgs : List Token → List String × List Token
  | Token.ident s :: rest =>
    let r := protoArgs rest
    (s :: r.1, r.2)
  | ts => ([], ts)

/-- The message of the SyntaxError raised for a declared precedence
outside the range from 1 to 100. -/
def invalidPrecMsg : String := "Invalid precedence: must be in range 1 to 100."

/-- The message of the SyntaxError raised by the argument-count check
of Parser.parse_prototype. -/
def arityMsg : String := "Invalid number of arguments for an operator."

/-- The tail of Parser.parse_prototype after the name, arity and
optional precedence are known: the parenthesised parameter list and the
argument-count check.  The check embeds the chained comparison of the
source, arity != len(args) != 2, literally: it fires only when the
count differs from the declared arity AND from two. -/
def protoFinish (arity : Nat) (name : String) (prec : Option NumV)
    (ts : List Token) : Except String (Prototype × List Token) :=
  match ts with
  | Token.char '(' :: ts1 =>
    let r := protoArgs ts1
    match r.2 with
    | Token.char ')' :: ts3 =>
      if arity != 0 && arity != r.1.length && r.1.length != 2 then
        Except.error arityMsg
      else
        Except.ok (⟨name, r.1, arity != 0, prec⟩, ts3)
    | _ => Except.error ("Expected rparen in prototype.")
  | _ => Except.error ("Expected lparen in prototype.")

/-- Parser.parse_prototype: a plain named prototype, or a unary or
binary operator prototype whose name is synthesized from the operator
symbol; a binary form may declare a numeric precedence, checked against
the range from 1 to 100 inclusive. -/
def parsePrototype (ts : List Token) :
    Except String (Prototype × List Token) :=
  match ts with
  | Token.ident name :: rest => protoFinish 0 name none rest
  | Token.keyword Kw.kunary :: rest =>
    (match rest with
     | Token.char c :: rest2 => protoFinish 1 (String.push ("unary") c) none rest2
     | _ => Except.error ("Expected an operator after keyword unary."))
  | Token.keyword Kw.kbinary :: rest =>
    (match rest with
     | Token.char c :: rest2 =>
       (match rest2 with
        | Token.number v :: rest3 =>
          if !(NumV.ble ⟨1, 0⟩ v && NumV.ble v ⟨100, 0⟩) then
            Except.error invalidPrecMsg
          else
            protoFinish 2 (String.push ("binary") c) (some v) rest3
        | _ => protoFinish 2 (String.push ("binary") c) none rest2)
     | _ => Except.error ("Expected an operator after keyword binary."))
  | _ => Except.error ("Expected function name or operator keyword in prototype.")

/-- Parser.parse_definition: consume the def keyword, parse the
prototype, then parse the body with the operator table as it stands; no
write to the table happens here. -/
def parseDefinition (fuel : Nat) (tbl : PrecTab) (ts : List Token) :
    Except String (Function × List Token) :=
  match ts with
  | _ :: rest => do
    let (proto, ts1) ← parsePrototype rest
    let (body, ts2) ← parseExpression fuel tbl ts1
    Except.ok (Function.mk proto body, ts2)
  | [] => Except.error streamMsg

/-- Parser.parse_extern: consume the extern keyword and return the bare
prototype. -/
def parseExtern (ts : List Token) :
    Except String (Prototype × List Token) :=
  match ts with
  | _ :: rest => parsePrototype rest
  | [] => Except.error streamMsg

/-- Parser.parse_toplevel: wrap a bare expression in a Function with an
anonymous zero-argument prototype. -/
def parseToplevel (fuel : Nat) (tbl : PrecTab) (ts : List Token) :
    Except String (Function × List Token) :=
  do
    let (e, ts1) ← parseExpression fuel tbl ts
    Except.ok (Function.mk ⟨"", [], false, none⟩ e, ts1)

/-- One turn of the Parser.parse generator loop: dispatch on the
current token.  The def, extern, if and var arms yield the flag False;
every other current token is parsed as a top-level expression with the
flag True. -/
def parseStep (fuel : Nat) (tbl : PrecTab) (ts : List Token) :
    Except String ((Bool × TopItem) × List Token) :=
  match ts with
  | Token.keyword Kw.kdef :: _ =>
    (parseDefinition fuel tbl ts).map (fun r => ((false, TopItem.fn r.1), r.2))
  | Token.keyword Kw.kextern :: _ =>
    (parseExtern ts).map (fun r => ((false, TopItem.proto r.1), r.2))
  | Token.keyword Kw.kif :: _ =>
    (parseIf fuel tbl ts).map (fun r => ((false, TopItem.expr r.1), r.2))
  | Token.keyword Kw.kvar :: _ =>
    (parseVar fuel tbl ts).map (fun r => ((false, TopItem.expr r.1), r.2))
  | _ =>
    (parseToplevel fuel tbl ts).map (fun r => ((true, TopItem.fn r.1), r.2))

/-- Modelled from the spec: the operator-registration side effect of
lowering a parsed item (spec section 4.2; the lowering code of
kaleidoscope/ast.py is absent from the sources).  Lowering the
definition of a binary operator with an explicitly declared precedence
writes the symbol/precedence pair into the operator table; lowering
anything else leaves the table unchanged. -/
def lowerItem (tbl : PrecTab) (item : TopItem) : PrecTab :=
  match item with
  | TopItem.fn f =>
    (match f.prototype.isOperator, f.prototype.precedence with
     | true, some p =>
       (match f.prototype.name.toList with
        | ['b', 'i', 'n', 'a', 'r', 'y', c] => (c, p) :: tbl
        | _ => tbl)
     | _, _ => tbl)
  | _ => tbl

/-- The driver loop of src/kaleidoscope/repl.py over one token stream:
pull one item from the lazy Parser.parse generator, lower it (which may
register an operator, see lowerItem), and only then pull the next item,
so the table mutation is visible to every later top-level parse of the
same session.  The loop stops at the EOF sentinel; a parse error
propagates out of the loop, ending the sequence of items. -/
def session : Nat → PrecTab → List Token → List (Bool × TopItem)
  | 0, _, _ => []
  | fuel + 1, tbl, ts =>
    match ts with
    | [] => []
    | Token.eof :: _ => []
    | _ =>
      match parseStep fuel tbl ts with
      | Except.error _ => []
      | Except.ok ((b, item), ts1) =>
        (b, item) :: session fuel (lowerItem tbl item) ts1

/-! ## Helper lemmas -/

/-- Dropping a prefix never lengthens a list. -/
theorem length_dropWhile_le (p : Char → Bool) (l : List Char) :
    (l.dropWhile p).length ≤ l.length := by
  induction l with
  | nil => simp [List.dropWhile]
  | cons c rest ih =>
    simp only [List.dropWhile]
    split
    · exact Nat.le_succ_of_le ih
    · simp

/-- The rest left unread by the numeric-lexeme loop is no longer than
its input. -/
theorem numScan_rest_length (l : List Char) :
    ∀ d, ((numScan l d).2).length ≤ l.length := by
  induction l with
  | nil => intro d; simp [numScan]
  | cons c rest ih =>
    intro d
    simp only [numScan]
    split
    · exact Nat.le_succ_of_le (ih _)
    · simp

/-- The keyword table never produces the EOF sentinel. -/
theorem mkWord_ne_eof (w : String) : mkWord w ≠ Token.eof := by
  unfold mkWord
  repeat' split
  all_goals simp

/-- Prepending a non-EOF token preserves ending in a single EOF. -/
theorem eofShape_cons (t : Token) (l : List Token) (ht : t ≠ Token.eof)
    (h : l.getLast? = some Token.eof ∧ l.count Token.eof = 1) :
    (t :: l).getLast? = some Token.eof ∧ (t :: l).count Token.eof = 1 := by
  constructor
  · cases l with
    | nil => exact absurd h.1 (by simp)
    | cons b m => exact List.getLast?_cons_cons.trans h.1
  · simp [List.count_cons, h.2, Ne.symm ht]

/-- With fuel above the input length, a lexer run ends in exactly one
EOF sentinel. -/
theorem lexGo_eof_shape :
    ∀ fuel s, s.length < fuel →
      (lexGo fuel s).getLast? = some Token.eof ∧
        (lexGo fuel s).count Token.eof = 1 := by
  intro fuel
  induction fuel with
  | zero => intro s h; exact absurd h (Nat.not_lt_zero _)
  | succ fuel ih =>
    intro s h
    match s with
    | [] => simp [lexGo]
    | c :: rest =>
      have hr : rest.length < fuel := by
        simpa using Nat.lt_of_succ_lt_succ h
      simp only [lexGo]
      split
      · exact ih _ (Nat.lt_of_le_of_lt (length_dropWhile_le _ _) hr)
      · split
        · exact eofShape_cons _ _ (mkWord_ne_eof _)
            (ih _ (Nat.lt_of_le_of_lt (length_dropWhile_le _ _) hr))
        · split
          · exact eofShape_cons _ _ (by simp)
              (ih _ (Nat.lt_of_le_of_lt (numScan_rest_length _ _) hr))
          · split
            · exact ih _ (Nat.lt_of_le_of_lt (length_dropWhile_le _ _) hr)
            · exact eofShape_cons _ _ (by simp) (ih _ hr)

/-- Reduction of parse_prototype on a binary-operator form with an
explicit numeric precedence and a two-identifier parameter list: the
range check decides between the invalid-precedence error and a
prototype carrying the synthesized name and the declared precedence. -/
theorem parsePrototype_binary (c : Char) (p : NumV) (a b : String)
    (rest : List Token) :
    parsePrototype (Token.keyword Kw.kbinary :: Token.char c :: Token.number p ::
      Token.char '(' :: Token.ident a :: Token.ident b :: Token.char ')' :: rest) =
    (if NumV.ble ⟨1, 0⟩ p && NumV.ble p ⟨100, 0⟩ then
      Except.ok (⟨String.push ("binary") c, [a, b], true, some p⟩, rest)
    else Except.error invalidPrecMsg) := by
  cases hc : (NumV.ble ⟨1, 0⟩ p && NumV.ble p ⟨100, 0⟩) <;>
    simp [parsePrototype, protoFinish, protoArgs, hc]

/-- A bind of a pair-destructuring continuation that just returns is a
map. -/
theorem except_bind_mk {α β γ δ : Type} (x : Except String (α × β))
    (f : α → β → γ × δ) :
    (do
      let (u, v) ← x
      Except.ok (f u v)) = x.map (fun r => f r.1 r.2) := by
  cases x <;> rfl

/-- Reduction of parse_definition on a binary-operator definition with
an in-range declared precedence: the prototype is parsed first, and
the body parse then runs on the remaining tokens with the same,
unchanged operator table. -/
theorem parseDefinition_binary (fuel : Nat) (tbl : PrecTab) (c : Char)
    (p : NumV) (a b : String) (bodyToks : List Token)
    (hc : (NumV.ble ⟨1, 0⟩ p && NumV.ble p ⟨100, 0⟩) = true) :
    parseDefinition fuel tbl (Token.keyword Kw.kdef :: Token.keyword Kw.kbinary ::
      Token.char c :: Token.number p :: Token.char '(' :: Token.ident a ::
      Token.ident b :: Token.char ')' :: bodyToks) =
    (parseExpression fuel tbl bodyToks).map
      (fun r => (Function.mk ⟨String.push ("binary") c, [a, b], true, some p⟩ r.1,
        r.2)) := by
  simp only [parseDefinition]
  rw [parsePrototype_binary c p a b bodyToks, hc]
  exact except_bind_mk (parseExpression fuel tbl bodyToks)
    (fun body ts2 =>
      (Function.mk ⟨String.push ("binary") c, [a, b], true, some p⟩ body, ts2))

/-! ## Claims -/

/-- Claim C4 (code_bug evidence).  The claim: lexing 12.5 yields the
single number token 12.5, and 1.2.3 yields a single Number token.  The
code disagrees: the dot flag of Lexer.lex_number is cleared as soon as
the lookahead character is a dot, so the dot following a multi-digit
integer part is never consumed.  Lexing 12.5 yields the three tokens
12, dot, 5; lexing 1.2.3 yields the three tokens 1.2, dot, 3. -/
theorem c4_number_lexing :
    lexTokens ("12.5".toList) = [Token.number ⟨12, 0⟩, Token.char '.',
      Token.number ⟨5, 0⟩, Token.eof]
    ∧ lexTokens ("1.2.3".toList) = [Token.number ⟨12, 1⟩, Token.char '.',
      Token.number ⟨3, 0⟩, Token.eof] :=
  ⟨rfl, rfl⟩

/-- Claim C5 (code_bug evidence).  The claim: an operator prototype is
rejected exactly when its parameter count differs from the declared
arity.  The chained comparison of the source, arity != len(args) != 2,
accepts a unary operator prototype with two parameters (first
conjunct); every other mismatch is rejected as the claim states
(remaining conjuncts show binary with one, unary with zero and unary
with three parameters rejected). -/
theorem c5_arity_check :
    parsePrototype [Token.keyword Kw.kunary, Token.char '!', Token.char '(',
      Token.ident ("a"), Token.ident ("b"), Token.char ')'] =
      Except.ok (⟨"unary!", ["a", "b"], true, none⟩, [])
    ∧ parsePrototype [Token.keyword Kw.kbinary, Token.char '@', Token.char '(',
      Token.ident ("a"), Token.char ')'] = Except.error arityMsg
    ∧ parsePrototype [Token.keyword Kw.kunary, Token.char '!', Token.char '(',
      Token.char ')'] = Except.error arityMsg
    ∧ parsePrototype [Token.keyword Kw.kunary, Token.char '!', Token.char '(',
      Token.ident ("a"), Token.ident ("b"), Token.ident ("c"), Token.char ')'] =
      Except.error arityMsg :=
  ⟨rfl, rfl, rfl, rfl⟩

/-- Claim C6: parsing a binary operator prototype with an explicit
numeric precedence fails with the invalid-precedence error exactly when
the precedence lies outside the inclusive range from 1 to 100, and
succeeds otherwise, recording the precedence in the prototype. -/
theorem c6_precedence_range (v : NumV) (rest : List Token) :
    parsePrototype ([Token.keyword Kw.kbinary, Token.char '~', Token.number v,
      Token.char '(', Token.ident ("a"), Token.ident ("b"), Token.char ')'] ++ rest) =
    (if NumV.ble ⟨1, 0⟩ v && NumV.ble v ⟨100, 0⟩ then
      Except.ok (⟨"binary~", ["a", "b"], true, some v⟩, rest)
    else Except.error invalidPrecMsg) := by
  cases hc : (NumV.ble ⟨1, 0⟩ v && NumV.ble v ⟨100, 0⟩) <;>
    (simp [parsePrototype, protoFinish, protoArgs, hc]; try rfl)

/-- Claim C7: precedence climbing parses 1 + 2 * 3 with the
multiplication nested on the right, and 1 * 2 + 3 with the
multiplication nested on the left. -/
theorem c7_precedence_climbing :
    parseExpression 20 builtinPrecedence
      [Token.number ⟨1, 0⟩, Token.char '+', Token.number ⟨2, 0⟩,
       Token.char '*', Token.number ⟨3, 0⟩, Token.eof] =
      Except.ok (Expression.binary '+' (Expression.num ⟨1, 0⟩)
        (Expression.binary '*' (Expression.num ⟨2, 0⟩) (Expression.num ⟨3, 0⟩)),
        [Token.eof])
    ∧ parseExpression 20 builtinPrecedence
      [Token.number ⟨1, 0⟩, Token.char '*', Token.number ⟨2, 0⟩,
       Token.char '+', Token.number ⟨3, 0⟩, Token.eof] =
      Except.ok (Expression.binary '+'
        (Expression.binary '*' (Expression.num ⟨1, 0⟩) (Expression.num ⟨2, 0⟩))
        (Expression.num ⟨3, 0⟩), [Token.eof]) :=
  ⟨rfl, rfl⟩

/-- Claim C8 (counterexample).  The claim lists the symbol mapped to 10
among the built-in entries, but the table of
src/kaleidoscope/context.py has no entry for it: the lookup falls back
to the default -1, which differs from 10. -/
theorem c8_counterexample :
    precGet builtinPrecedence '>' = ⟨-1, 0⟩ ∧ (⟨-1, 0⟩ : NumV) ≠ (⟨10, 0⟩ : NumV) :=
  ⟨rfl, by decide⟩

/-- Claim C8 as amended: the built-in table holds exactly the six
entries of src/kaleidoscope/context.py; any symbol without an entry
gets the default precedence -1; and whenever the current precedence
compares below the minimal one (as -1 always does against the
non-negative thresholds arising in a parse), the binary-operator loop
immediately returns its left operand unchanged. -/
theorem c8_builtin_table :
    builtinPrecedence = [('=', (⟨2, 0⟩ : NumV)), ('<', ⟨10, 0⟩), ('+', ⟨20, 0⟩),
      ('-', ⟨20, 0⟩), ('*', ⟨40, 0⟩), ('/', ⟨40, 0⟩)]
    ∧ (∀ c : Char, List.lookup c builtinPrecedence = none →
        precGet builtinPrecedence c = ⟨-1, 0⟩)
    ∧ (∀ (fuel : Nat) (tbl : PrecTab) (left : Expression) (minPrec : NumV)
        (ts : List Token),
        NumV.blt (currentTokenPrecedence tbl ts) minPrec = true →
        parseBinopRight (fuel + 1) tbl left minPrec ts = Except.ok (left, ts)) := by
  refine ⟨rfl, ?_, ?_⟩
  · intro c hc
    simp [precGet, hc]
  · intro fuel tbl left minPrec ts h
    simp [parseBinopRight, h]

/-- Witness for claim C8: the symbol of the counterexample has no
entry and gets -1, and the loop run on a stream whose current token is
the EOF sentinel (precedence -1, below the threshold 0) returns the
left operand unchanged. -/
theorem c8_builtin_table_witness :
    (List.lookup '>' builtinPrecedence = none ∧
      precGet builtinPrecedence '>' = ⟨-1, 0⟩)
    ∧ (NumV.blt (currentTokenPrecedence builtinPrecedence [Token.eof]) ⟨0, 0⟩ = true
       ∧ parseBinopRight 5 builtinPrecedence (Expression.num ⟨7, 0⟩) ⟨0, 0⟩ [Token.eof] =
         Except.ok (Expression.num ⟨7, 0⟩, [Token.eof])) :=
  ⟨⟨rfl, c8_builtin_table.2.1 '>' rfl⟩,
   ⟨rfl, c8_builtin_table.2.2 4 builtinPrecedence (Expression.num ⟨7, 0⟩) ⟨0, 0⟩
      [Token.eof] rfl⟩⟩

/-- Claim C9: the lexer never fails, and any character that is not a
comment opener, alphabetic, a digit or whitespace is consumed as a
one-character Symbol token, the rest of the input lexing as before.
The embedding is a total function, so the no-error part holds by
construction. -/
theorem c9_symbol_fallback (c : Char) (rest : List Char)
    (h1 : c ≠ '#') (h2 : c.isAlpha = false) (h3 : c.isDigit = false)
    (h4 : isSpacePy c = false) :
    lexTokens (c :: rest) = Token.char c :: lexTokens rest := by
  simp [lexTokens, lexGo, h1, h2, h3, h4]

/-- Witness for claim C9 at the dollar character. -/
theorem c9_symbol_fallback_witness :
    ('$' ≠ '#' ∧ Char.isAlpha '$' = false ∧ Char.isDigit '$' = false ∧
      isSpacePy '$' = false)
    ∧ lexTokens ['$'] = Token.char '$' :: lexTokens [] :=
  ⟨⟨by decide, by decide, by decide, by decide⟩,
   c9_symbol_fallback '$' [] (by decide) (by decide) (by decide) (by decide)⟩

/-- Claim C10: a Char token other than the two parentheses at the head
of an operand position is unconditionally consumed as a prefix unary
operator, the result wrapping the recursively parsed operand; no
unexpected-token error can arise from the leading symbol itself. -/
theorem c10_prefix_unary (fuel : Nat) (tbl : PrecTab) (c : Char)
    (ts : List Token) (h1 : c ≠ '(') (h2 : c ≠ ')') :
    parseUnary (fuel + 1) tbl (Token.char c :: ts) =
      (parseUnary fuel tbl ts).map (fun r => (Expression.unary c r.1, r.2)) := by
  cases hu : parseUnary fuel tbl ts <;>
    simp only [parseUnary, h1, h2, hu, Except.map, decide_not] <;>
    rfl

/-- Witness for claim C10 at the comma symbol over a number operand. -/
theorem c10_prefix_unary_witness :
    parseUnary 6 builtinPrecedence [Token.char ',', Token.number ⟨1, 0⟩, Token.eof] =
      (parseUnary 5 builtinPrecedence [Token.number ⟨1, 0⟩, Token.eof]).map
        (fun r => (Expression.unary ',' r.1, r.2)) :=
  c10_prefix_unary 5 builtinPrecedence ','
    [Token.number ⟨1, 0⟩, Token.eof] (by decide) (by decide)

/-- Claim C3 (counterexample).  The claim: once EOF is reached the
lexer keeps emitting it on every further pull.  Pulling the token
sequence of the one-character input once past its EOF answers nothing
(the generator is exhausted), not another EOF. -/
theorem c3_counterexample :
    (lexTokens ("1".toList))[2]? = none ∧
      (none : Option Token) ≠ some Token.eof :=
  ⟨rfl, by decide⟩

/-- Claim C3 as amended: for every input the yielded token sequence is
finite and ends with the EOF sentinel, which occurs exactly once; the
generator then stops rather than repeating it. -/
theorem c3_eof_terminal (s : List Char) :
    (lexTokens s).getLast? = some Token.eof ∧
      (lexTokens s).count Token.eof = 1 :=
  lexGo_eof_shape (s.length + 1) s (Nat.lt_succ_self _)

/-- Claim C1 (counterexample).  The claim: the symbol/precedence pair
of a binary operator definition is in the operator table before the
function body is parsed.  Parsing def binary^ 50 (a b) a ^ b with the
built-in table shows otherwise: the body is parsed while the caret
still has default precedence -1, so the body is just the variable a
(not the caret application of a to b the claim implies) and the
leftover caret starts a separate top-level item. -/
theorem c1_counterexample :
    parseStep 30 builtinPrecedence
      [Token.keyword Kw.kdef, Token.keyword Kw.kbinary, Token.char '^',
       Token.number ⟨50, 0⟩, Token.char '(', Token.ident ("a"),
       Token.ident ("b"), Token.char ')', Token.ident ("a"),
       Token.char '^', Token.ident ("b"), Token.eof] =
      Except.ok ((false, TopItem.fn ⟨⟨"binary^", ["a", "b"], true, some ⟨50, 0⟩⟩,
        Expression.varRef ("a")⟩), [Token.char '^', Token.ident ("b"), Token.eof])
    ∧ Expression.varRef ("a") ≠ Expression.binary '^' (Expression.varRef ("a"))
        (Expression.varRef ("b")) :=
  ⟨rfl, fun h => nomatch h⟩

/-- Claim C1 as amended, for every binary-operator definition and
session: whenever the generator successfully yields a definition parsed
from def binary<op> <prec> (params) <body>, the symbol/precedence pair
is carried in the yielded prototype; the body was parsed with the
operator table unchanged; lowering the yielded item writes the pair
into the table; the lookup parse_binop_right performs on a stream
headed by the operator then answers the declared precedence; and the
session driver parses every later top-level item with the updated
table, having lowered the definition before pulling the next item. -/
theorem c1_registration_order (fuel : Nat) (tbl : PrecTab) (c : Char)
    (p : NumV) (a b : String) (bodyToks ts1 : List Token) (f : Function)
    (hstep : parseStep fuel tbl (Token.keyword Kw.kdef :: Token.keyword Kw.kbinary ::
      Token.char c :: Token.number p :: Token.char '(' :: Token.ident a ::
      Token.ident b :: Token.char ')' :: bodyToks) =
      Except.ok ((false, TopItem.fn f), ts1)) :
    f.prototype = ⟨String.push ("binary") c, [a, b], true, some p⟩
    ∧ parseExpression fuel tbl bodyToks = Except.ok (f.body, ts1)
    ∧ lowerItem tbl (TopItem.fn f) = (c, p) :: tbl
    ∧ currentTokenPrecedence ((c, p) :: tbl) (Token.char c :: ts1) = p
    ∧ session (fuel + 1) tbl (Token.keyword Kw.kdef :: Token.keyword Kw.kbinary ::
        Token.char c :: Token.number p :: Token.char '(' :: Token.ident a ::
        Token.ident b :: Token.char ')' :: bodyToks) =
      (false, TopItem.fn f) :: session fuel ((c, p) :: tbl) ts1 := by
  have hstep0 := hstep
  simp only [parseStep] at hstep
  cases hc : (NumV.ble ⟨1, 0⟩ p && NumV.ble p ⟨100, 0⟩) with
  | false =>
    have hdef : parseDefinition fuel tbl (Token.keyword Kw.kdef ::
        Token.keyword Kw.kbinary :: Token.char c :: Token.number p ::
        Token.char '(' :: Token.ident a :: Token.ident b :: Token.char ')' ::
        bodyToks) = Except.error invalidPrecMsg := by
      simp only [parseDefinition]
      rw [parsePrototype_binary c p a b bodyToks, hc]
      rfl
    rw [hdef] at hstep
    exact nomatch hstep
  | true =>
    rw [parseDefinition_binary fuel tbl c p a b bodyToks hc] at hstep
    cases he : parseExpression fuel tbl bodyToks with
    | error m =>
      rw [he] at hstep
      exact nomatch hstep
    | ok r =>
      rw [he] at hstep
      have h2 : (Except.ok ((false, TopItem.fn
          ⟨⟨String.push ("binary") c, [a, b], true, some p⟩, r.1⟩), r.2) :
          Except String ((Bool × TopItem) × List Token)) =
          Except.ok ((false, TopItem.fn f), ts1) := hstep
      simp only [Except.ok.injEq, Prod.mk.injEq, TopItem.fn.injEq, true_and] at h2
      obtain ⟨hf, hts⟩ := h2
      subst hts
      subst hf
      have hlow : lowerItem tbl (TopItem.fn
          ⟨⟨String.push ("binary") c, [a, b], true, some p⟩, r.1⟩) =
          (c, p) :: tbl := rfl
      refine ⟨rfl, ?_, hlow, ?_, ?_⟩
      · rfl
      · simp [currentTokenPrecedence, precGet, List.lookup]
      · rw [← hlow]
        simp only [session]
        rw [hstep0]

/-- Witness for claim C1: the definition def binary^ 50 (a b) a
followed by 1 ^ 2 ^ 3 exercises the theorem; the discharged hypothesis
is the successful parse of the definition item. -/
theorem c1_registration_order_witness :
    parseStep 29 builtinPrecedence
      [Token.keyword Kw.kdef, Token.keyword Kw.kbinary, Token.char '^',
       Token.number ⟨50, 0⟩, Token.char '(', Token.ident ("a"),
       Token.ident ("b"), Token.char ')', Token.ident ("a"),
       Token.number ⟨1, 0⟩, Token.char '^', Token.number ⟨2, 0⟩,
       Token.char '^', Token.number ⟨3, 0⟩, Token.eof] =
      Except.ok ((false, TopItem.fn ⟨⟨"binary^", ["a", "b"], true, some ⟨50, 0⟩⟩,
        Expression.varRef ("a")⟩),
        [Token.number ⟨1, 0⟩, Token.char '^', Token.number ⟨2, 0⟩,
         Token.char '^', Token.number ⟨3, 0⟩, Token.eof])
    ∧ ((⟨⟨"binary^", ["a", "b"], true, some ⟨50, 0⟩⟩,
          Expression.varRef ("a")⟩ : Function).prototype =
        ⟨String.push ("binary") '^', ["a", "b"], true, some ⟨50, 0⟩⟩
      ∧ parseExpression 29 builtinPrecedence
          [Token.ident ("a"), Token.number ⟨1, 0⟩, Token.char '^',
           Token.number ⟨2, 0⟩, Token.char '^', Token.number ⟨3, 0⟩, Token.eof] =
          Except.ok ((⟨⟨"binary^", ["a", "b"], true, some ⟨50, 0⟩⟩,
            Expression.varRef ("a")⟩ : Function).body,
            [Token.number ⟨1, 0⟩, Token.char '^', Token.number ⟨2, 0⟩,
             Token.char '^', Token.number ⟨3, 0⟩, Token.eof])
      ∧ lowerItem builtinPrecedence (TopItem.fn ⟨⟨"binary^", ["a", "b"], true,
          some ⟨50, 0⟩⟩, Expression.varRef ("a")⟩) =
          ('^', ⟨50, 0⟩) :: builtinPrecedence
      ∧ currentTokenPrecedence (('^', (⟨50, 0⟩ : NumV)) :: builtinPrecedence)
          (Token.char '^' :: [Token.number ⟨1, 0⟩, Token.char '^',
            Token.number ⟨2, 0⟩, Token.char '^', Token.number ⟨3, 0⟩,
            Token.eof]) = ⟨50, 0⟩
      ∧ session (29 + 1) builtinPrecedence
          [Token.keyword Kw.kdef, Token.keyword Kw.kbinary, Token.char '^',
           Token.number ⟨50, 0⟩, Token.char '(', Token.ident ("a"),
           Token.ident ("b"), Token.char ')', Token.ident ("a"),
           Token.number ⟨1, 0⟩, Token.char '^', Token.number ⟨2, 0⟩,
           Token.char '^', Token.number ⟨3, 0⟩, Token.eof] =
        (false, TopItem.fn ⟨⟨"binary^", ["a", "b"], true, some ⟨50, 0⟩⟩,
          Expression.varRef ("a")⟩) ::
          session 29 (('^', ⟨50, 0⟩) :: builtinPrecedence)
            [Token.number ⟨1, 0⟩, Token.char '^', Token.number ⟨2, 0⟩,
             Token.char '^', Token.number ⟨3, 0⟩, Token.eof]) :=
  ⟨rfl, c1_registration_order 29 builtinPrecedence '^' ⟨50, 0⟩ ("a") ("b")
    [Token.ident ("a"), Token.number ⟨1, 0⟩, Token.char '^', Token.number ⟨2, 0⟩,
     Token.char '^', Token.number ⟨3, 0⟩, Token.eof]
    [Token.number ⟨1, 0⟩, Token.char '^', Token.number ⟨2, 0⟩, Token.char '^',
     Token.number ⟨3, 0⟩, Token.eof]
    ⟨⟨"binary^", ["a", "b"], true, some ⟨50, 0⟩⟩, Expression.varRef ("a")⟩ rfl⟩

/-- Claim C2 (counterexample).  The claim: every yielded item is a
FunctionDef.  The extern arm of the parse generator yields the bare
prototype, which is not a Function node. -/
theorem c2_counterexample :
    parseStep 20 builtinPrecedence [Token.keyword Kw.kextern, Token.ident ("sin"),
      Token.char '(', Token.ident ("x"), Token.char ')', Token.eof] =
      Except.ok ((false, TopItem.proto ⟨"sin", ["x"], false, none⟩), [Token.eof])
    ∧ TopItem.isFn (TopItem.proto ⟨"sin", ["x"], false, none⟩) = false :=
  ⟨rfl, rfl⟩

/-- A successful top-level-expression arm of the generator always
carries the flag True and wraps the expression in a Function with the
anonymous zero-argument prototype. -/
theorem parseToplevel_shape (fuel : Nat) (tbl : PrecTab) (ts ts1 : List Token)
    (b : Bool) (item : TopItem)
    (h : (parseToplevel fuel tbl ts).map
      (fun r => ((true, TopItem.fn r.1), r.2)) = Except.ok ((b, item), ts1)) :
    b = true ∧ ∃ e, item = TopItem.fn ⟨⟨"", [], false, none⟩, e⟩ := by
  unfold parseToplevel at h
  cases he : parseExpression fuel tbl ts with
  | error m =>
    rw [he] at h
    exact nomatch h
  | ok r =>
    rw [he] at h
    have h2 : (Except.ok ((true, TopItem.fn ⟨⟨"", [], false, none⟩, r.1⟩), r.2) :
        Except String ((Bool × TopItem) × List Token)) =
        Except.ok ((b, item), ts1) := h
    simp only [Except.ok.injEq, Prod.mk.injEq] at h2
    exact ⟨h2.1.1.symm, ⟨r.1, h2.1.2.symm⟩⟩

/-- Assembles the conclusion of the per-item claim for a token heading
a top-level-expression arm. -/
theorem c2_else_finish (t : Token) (b : Bool) (item : TopItem)
    (h1 : t ≠ Token.keyword Kw.kdef) (h2 : t ≠ Token.keyword Kw.kextern)
    (h3 : t ≠ Token.keyword Kw.kif) (h4 : t ≠ Token.keyword Kw.kvar)
    (hb : b = true) (e : Expression)
    (hi : item = TopItem.fn ⟨⟨"", [], false, none⟩, e⟩) :
    ((b = false) ↔ (t = Token.keyword Kw.kdef ∨ t = Token.keyword Kw.kextern ∨
        t = Token.keyword Kw.kif ∨ t = Token.keyword Kw.kvar))
    ∧ (t = Token.keyword Kw.kdef → ∃ f, item = TopItem.fn f)
    ∧ (t = Token.keyword Kw.kextern → ∃ p, item = TopItem.proto p)
    ∧ ((t = Token.keyword Kw.kif ∨ t = Token.keyword Kw.kvar) →
        ∃ e2, item = TopItem.expr e2)
    ∧ (b = true → ∃ e2, item = TopItem.fn ⟨⟨"", [], false, none⟩, e2⟩) := by
  subst hb
  subst hi
  exact ⟨by simp [h1, h2, h3, h4], by simp [h1], by simp [h2],
    by simp [h3, h4], fun _ => ⟨e, rfl⟩⟩

/-- Claim C2 as amended: every successfully yielded pair carries the
flag False exactly when the item came from a def, extern, if or var
head; a def yields a Function node, an extern yields the bare
Prototype, an if or var head yields the expression node itself, and a
flag of True means the item is a Function wrapping the bare expression
in the anonymous zero-argument prototype. -/
theorem c2_item_shape (fuel : Nat) (tbl : PrecTab) (t : Token)
    (ts rest : List Token) (b : Bool) (item : TopItem)
    (h : parseStep fuel tbl (t :: ts) = Except.ok ((b, item), rest)) :
    ((b = false) ↔ (t = Token.keyword Kw.kdef ∨ t = Token.keyword Kw.kextern ∨
        t = Token.keyword Kw.kif ∨ t = Token.keyword Kw.kvar))
    ∧ (t = Token.keyword Kw.kdef → ∃ f, item = TopItem.fn f)
    ∧ (t = Token.keyword Kw.kextern → ∃ p, item = TopItem.proto p)
    ∧ ((t = Token.keyword Kw.kif ∨ t = Token.keyword Kw.kvar) →
        ∃ e2, item = TopItem.expr e2)
    ∧ (b = true → ∃ e2, item = TopItem.fn ⟨⟨"", [], false, none⟩, e2⟩) := by
  cases t with
  | keyword k =>
    cases k with
    | kdef =>
      simp only [parseStep] at h
      cases hd : parseDefinition fuel tbl (Token.keyword Kw.kdef :: ts) with
      | error m =>
        rw [hd] at h
        exact nomatch h
      | ok r =>
        rw [hd] at h
        have h2 : (Except.ok ((false, TopItem.fn r.1), r.2) :
            Except String ((Bool × TopItem) × List Token)) =
            Except.ok ((b, item), rest) := h
        simp only [Except.ok.injEq, Prod.mk.injEq] at h2
        obtain ⟨⟨hb, hi⟩, hr⟩ := h2
        subst hb
        subst hi
        exact ⟨by simp, fun _ => ⟨r.1, rfl⟩, by simp, by simp, by simp⟩
    | kextern =>
      simp only [parseStep] at h
      cases hd : parseExtern (Token.keyword Kw.kextern :: ts) with
      | error m =>
        rw [hd] at h
        exact nomatch h
      | ok r =>
        rw [hd] at h
        have h2 : (Except.ok ((false, TopItem.proto r.1), r.2) :
            Except String ((Bool × TopItem) × List Token)) =
            Except.ok ((b, item), rest) := h
        simp only [Except.ok.injEq, Prod.mk.injEq] at h2
        obtain ⟨⟨hb, hi⟩, hr⟩ := h2
        subst hb
        subst hi
        exact ⟨by simp, by simp, fun _ => ⟨r.1, rfl⟩, by simp, by simp⟩
    | kif =>
      simp only [parseStep] at h
      cases hd : parseIf fuel tbl (Token.keyword Kw.kif :: ts) with
      | error m =>
        rw [hd] at h
        exact nomatch h
      | ok r =>
        rw [hd] at h
        have h2 : (Except.ok ((false, TopItem.expr r.1), r.2) :
            Except String ((Bool × TopItem) × List Token)) =
            Except.ok ((b, item), rest) := h
        simp only [Except.ok.injEq, Prod.mk.injEq] at h2
        obtain ⟨⟨hb, hi⟩, hr⟩ := h2
        subst hb
        subst hi
        exact ⟨by simp, by simp, by simp, fun _ => ⟨r.1, rfl⟩, by simp⟩
    | kvar =>
      simp only [parseStep] at h
      cases hd : parseVar fuel tbl (Token.keyword Kw.kvar :: ts) with
      | error m =>
        rw [hd] at h
        exact nomatch h
      | ok r =>
        rw [hd] at h
        have h2 : (Except.ok ((false, TopItem.expr r.1), r.2) :
            Except String ((Bool × TopItem) × List Token)) =
            Except.ok ((b, item), rest) := h
        simp only [Except.ok.injEq, Prod.mk.injEq] at h2
        obtain ⟨⟨hb, hi⟩, hr⟩ := h2
        subst hb
        subst hi
        exact ⟨by simp, by simp, by simp, fun _ => ⟨r.1, rfl⟩, by simp⟩
    | kbinary =>
      simp only [parseStep] at h
      obtain ⟨hb, e, hi⟩ := parseToplevel_shape _ _ _ _ _ _ h
      exact c2_else_finish _ _ _ (by simp) (by simp) (by simp) (by simp) hb e hi
    | kelse =>
      simp only [parseStep] at h
      obtain ⟨hb, e, hi⟩ := parseToplevel_shape _ _ _ _ _ _ h
      exact c2_else_finish _ _ _ (by simp) (by simp) (by simp) (by simp) hb e hi
    | kfor =>
      simp only [parseStep] at h
      obtain ⟨hb, e, hi⟩ := parseToplevel_shape _ _ _ _ _ _ h
      exact c2_else_finish _ _ _ (by simp) (by simp) (by simp) (by simp) hb e hi
    | kin =>
      simp only [parseStep] at h
      obtain ⟨hb, e, hi⟩ := parseToplevel_shape _ _ _ _ _ _ h
      exact c2_else_finish _ _ _ (by simp) (by simp) (by simp) (by simp) hb e hi
    | kthen =>
      simp only [parseStep] at h
      obtain ⟨hb, e, hi⟩ := parseToplevel_shape _ _ _ _ _ _ h
      exact c2_else_finish _ _ _ (by simp) (by simp) (by simp) (by simp) hb e hi
    | kunary =>
      simp only [parseStep] at h
      obtain ⟨hb, e, hi⟩ := parseToplevel_shape _ _ _ _ _ _ h
      exact c2_else_finish _ _ _ (by simp) (by simp) (by simp) (by simp) hb e hi
  | eof =>
    simp only [parseStep] at h
    obtain ⟨hb, e, hi⟩ := parseToplevel_shape _ _ _ _ _ _ h
    exact c2_else_finish _ _ _ (by simp) (by simp) (by simp) (by simp) hb e hi
  | ident name =>
    simp only [parseStep] at h
    obtain ⟨hb, e, hi⟩ := parseToplevel_shape _ _ _ _ _ _ h
    exact c2_else_finish _ _ _ (by simp) (by simp) (by simp) (by simp) hb e hi
  | number v =>
    simp only [parseStep] at h
    obtain ⟨hb, e, hi⟩ := parseToplevel_shape _ _ _ _ _ _ h
    exact c2_else_finish _ _ _ (by simp) (by simp) (by simp) (by simp) hb e hi
  | char c =>
    simp only [parseStep] at h
    obtain ⟨hb, e, hi⟩ := parseToplevel_shape _ _ _ _ _ _ h
    exact c2_else_finish _ _ _ (by simp) (by simp) (by simp) (by simp) hb e hi

/-- Witness for claim C2 at an extern item: the parse succeeds, and
the conclusion holds at its concrete output. -/
theorem c2_item_shape_witness :
    parseStep 20 builtinPrecedence (Token.keyword Kw.kextern ::
      [Token.ident ("sin"), Token.char '(', Token.ident ("x"), Token.char ')',
       Token.eof]) =
      Except.ok ((false, TopItem.proto ⟨"sin", ["x"], false, none⟩), [Token.eof])
    ∧ (((false = (false : Bool)) ↔ (Token.keyword Kw.kextern = Token.keyword Kw.kdef ∨
        Token.keyword Kw.kextern = Token.keyword Kw.kextern ∨
        Token.keyword Kw.kextern = Token.keyword Kw.kif ∨
        Token.keyword Kw.kextern = Token.keyword Kw.kvar))
      ∧ (Token.keyword Kw.kextern = Token.keyword Kw.kdef →
          ∃ f, TopItem.proto ⟨"sin", ["x"], false, none⟩ = TopItem.fn f)
      ∧ (Token.keyword Kw.kextern = Token.keyword Kw.kextern →
          ∃ p, TopItem.proto ⟨"sin", ["x"], false, none⟩ = TopItem.proto p)
      ∧ ((Token.keyword Kw.kextern = Token.keyword Kw.kif ∨
          Token.keyword Kw.kextern = Token.keyword Kw.kvar) →
          ∃ e2, TopItem.proto ⟨"sin", ["x"], false, none⟩ = TopItem.expr e2)
      ∧ ((false : Bool) = true →
          ∃ e2, TopItem.proto ⟨"sin", ["x"], false, none⟩ =
            TopItem.fn ⟨⟨"", [], false, none⟩, e2⟩)) :=
  ⟨rfl, c2_item_shape 20 builtinPrecedence (Token.keyword Kw.kextern)
    [Token.ident ("sin"), Token.char '(', Token.ident ("x"), Token.char ')',
     Token.eof] [Token.eof] false (TopItem.proto ⟨"sin", ["x"], false, none⟩) rfl⟩

end Kal
